import Mathlib

/-!
ThermiOS, `libs/LibC/Sys/cdefs.h`.

A shallow embedding of the header `src/libs/LibC/Sys/cdefs.h` as the list of
its fifteen source lines, together with an interpreter for the conditional
inclusion and `#define` directives that the header uses.  The interpreter keeps
the usual stack of open `#if` sections, so which `#if` an `#else` or `#endif`
belongs to is decided by running the lines, not by how the header is indented.
-/

namespace CDefs

/-- Preprocessing tokens that occur in replacement lists. -/
inductive Token where
  | ident (s : String)
  | punct (s : String)
  | strLit (s : String)
  deriving DecidableEq, Repr

/-- The language the translation unit is compiled as. -/
inductive Lang where
  | c
  | cpp
  deriving DecidableEq, Repr

/-- Macro environment: the replacement list of every defined object-like macro. -/
abbrev Env := String → Option (List Token)

/-- The environment with no macro defined. -/
def Env.empty : Env := fun _ => none

/-- Effect of `#define name body` on the environment: the new replacement list
takes the place of whatever was there. -/
def Env.define (env : Env) (name : String) (body : List Token) : Env :=
  fun n => if n = name then some body else env n

/-- The condition of `#ifdef name`.  `__cplusplus` is predefined by the
implementation exactly when the unit is compiled as C++; every other name is
looked up in the macro environment. -/
def isDefined (lang : Lang) (env : Env) (name : String) : Bool :=
  if name = "__cplusplus" then decide (lang = Lang.cpp) else (env name).isSome

/-- One source line of a header. -/
inductive Line where
  | blank
  | pragmaOnce
  | ifdef (name : String)
  | ifndef (name : String)
  | define (name : String) (body : List Token)
  | else_
  | endif
  deriving DecidableEq, Repr

/-- An open `#if` section: whether the enclosing group is being processed,
the value of the section's condition, and whether its `#else` has been seen. -/
structure Frame where
  parentActive : Bool
  cond : Bool
  inElse : Bool
  deriving DecidableEq, Repr

/-- Whether the group the section is currently in is being processed. -/
def Frame.active (f : Frame) : Bool :=
  f.parentActive && (if f.inElse then !f.cond else f.cond)

/-- A `#define` that was executed: the name, the replacement list, and what
the name was defined as just before (`none` when it was not defined). -/
structure DefineEvent where
  name : String
  body : List Token
  previous : Option (List Token)
  deriving DecidableEq, Repr

/-- Preprocessor state while a header is read. -/
structure State where
  env : Env
  stack : List Frame
  trace : List DefineEvent

/-- Whether the current line lies in a group that is being processed. -/
def State.active (st : State) : Bool :=
  match st.stack with
  | [] => true
  | f :: _ => f.active

/-- Processing of one line.  `none` is a malformed header: an `#else` or
`#endif` without an open section, or a second `#else` in one section. -/
def step (lang : Lang) (st : State) : Line → Option State
  | Line.blank => some st
  | Line.pragmaOnce => some st
  | Line.ifdef name =>
      some { st with stack :=
        { parentActive := st.active, cond := isDefined lang st.env name,
          inElse := false } :: st.stack }
  | Line.ifndef name =>
      some { st with stack :=
        { parentActive := st.active, cond := !isDefined lang st.env name,
          inElse := false } :: st.stack }
  | Line.define name body =>
      if st.active then
        some { st with
          env := st.env.define name body
          trace := st.trace ++ [{ name := name, body := body, previous := st.env name }] }
      else some st
  | Line.else_ =>
      match st.stack with
      | [] => none
      | f :: rest =>
          if f.inElse then none else some { st with stack := { f with inElse := true } :: rest }
  | Line.endif =>
      match st.stack with
      | [] => none
      | _ :: rest => some { st with stack := rest }

/-- Processing of a list of lines, first to last. -/
def run (lang : Lang) : State → List Line → Option State
  | st, [] => some st
  | st, l :: ls =>
      match step lang st l with
      | none => none
      | some st1 => run lang st1 ls

/-- What one pass over a header leaves behind: the macro environment and the
`#define`s that were executed, in order. -/
structure Result where
  env : Env
  trace : List DefineEvent

/-- One pass over a whole header starting from `env`; every section has to be
closed at the end of the file. -/
def process (lang : Lang) (env : Env) (ls : List Line) : Option Result :=
  match run lang { env := env, stack := [], trace := [] } ls with
  | none => none
  | some st =>
      match st.stack with
      | [] => some { env := st.env, trace := st.trace }
      | _ :: _ => none

/-- Replacement list `inline __attribute__((always_inline))`. -/
def alwaysInlineBody : List Token :=
  [Token.ident "inline", Token.ident "__attribute__", Token.punct "(", Token.punct "(",
   Token.ident "always_inline", Token.punct ")", Token.punct ")"]

/-- Replacement list `extern "C" {`. -/
def beginBody : List Token :=
  [Token.ident "extern", Token.strLit "C", Token.punct "\x7b"]

/-- Replacement list `}`. -/
def endBody : List Token :=
  [Token.punct "\x7d"]

/-- The header `libs/LibC/Sys/cdefs.h`, line by line. -/
def cdefs : List Line :=
  [ Line.pragmaOnce,
    Line.blank,
    Line.ifndef "ALWAYS_INLINE",
    Line.define "ALWAYS_INLINE" alwaysInlineBody,
    Line.endif,
    Line.blank,
    Line.ifdef "__cplusplus",
    Line.ifndef "__BEGIN_CDECLS",
    Line.define "__BEGIN_CDECLS" beginBody,
    Line.define "__END_CDECLS" endBody,
    Line.else_,
    Line.define "__BEGIN_CDECLS" [],
    Line.define "__END_CDECLS" [],
    Line.endif,
    Line.endif ]

/-- Lines 3 to 15 of the header: everything after `#pragma once`. -/
def guardedDirectives : List Line := cdefs.drop 2

/-- Inclusion of `cdefs.h` in a translation unit compiled as `lang` whose macro
environment is `env`. -/
def includeCdefs (lang : Lang) (env : Env) : Option Result :=
  process lang env cdefs

/-- Lines 3 to 15 processed twice in a row as plain text, the second pass
starting from the environment the first pass left.  This is not an inclusion of
the header: line 1 is left out, so nothing stops the second pass.  The result
holds both passes. -/
def guardedTwice (lang : Lang) (env : Env) : Option (Result × Result) :=
  match process lang env guardedDirectives with
  | none => none
  | some r1 =>
      match process lang r1.env guardedDirectives with
      | none => none
      | some r2 => some (r1, r2)

/-- Whether a pass over the lines meets a `#pragma once` in a group that is
being processed. -/
def issuesOnce (lang : Lang) : State → List Line → Bool
  | _, [] => false
  | st, l :: ls =>
      (decide (l = Line.pragmaOnce) && st.active) ||
        match step lang st l with
        | none => false
        | some st1 => issuesOnce lang st1 ls

/-- A translation unit while its source is read: the macro environment and the
files that have issued `#pragma once`. -/
structure TransUnit where
  env : Env
  onceFiles : List String

/-- An `#include` of the file `path` with the lines `ls`.  A file that has
issued `#pragma once` earlier in the unit is skipped: no line of it is
processed.  Otherwise its lines are processed, and the file is remembered when
the pass met a `#pragma once`. -/
def includeFile (lang : Lang) (tu : TransUnit) (path : String) (ls : List Line) :
    Option (TransUnit × Result) :=
  if path ∈ tu.onceFiles then some (tu, { env := tu.env, trace := [] })
  else
    match process lang tu.env ls with
    | none => none
    | some r =>
        some ({ env := r.env,
                onceFiles :=
                  if issuesOnce lang { env := tu.env, stack := [], trace := [] } ls
                  then path :: tu.onceFiles else tu.onceFiles }, r)

/-- Path of the header inside the repository. -/
def cdefsPath : String := "libs/LibC/Sys/cdefs.h"

/-- The header included twice in a row in a unit that has included nothing
before.  The result holds both inclusions. -/
def includeCdefsTwice (lang : Lang) (env : Env) : Option (Result × Result) :=
  match includeFile lang { env := env, onceFiles := [] } cdefsPath cdefs with
  | none => none
  | some (tu1, r1) =>
      match includeFile lang tu1 cdefsPath cdefs with
      | none => none
      | some (_, r2) => some (r1, r2)

/-- Macro expansion of a token sequence with rescanning.  Every identifier
that names a defined object-like macro is replaced by its replacement list,
which is expanded in turn; `hide` holds the macros being replaced, which are
not replaced again inside their own expansion.  `fuel` bounds the nesting
depth; with no fuel left the tokens are returned as they are. -/
def expand (env : Env) : Nat → List String → List Token → List Token
  | 0, _, toks => toks
  | fuel + 1, hide, toks =>
      toks.flatMap fun t =>
        match t with
        | Token.ident n =>
            if n ∈ hide then [t]
            else
              match env n with
              | some body => expand env fuel (n :: hide) body
              | none => [t]
        | _ => [t]

/-- The source text `__BEGIN_CDECLS __END_CDECLS`. -/
def pairUse : List Token :=
  [Token.ident "__BEGIN_CDECLS", Token.ident "__END_CDECLS"]

/-- Whether a pass executed a `#define` of `name`. -/
def Result.defines (r : Result) (name : String) : Bool :=
  r.trace.any (fun e => e.name == name)

/-- Whether a pass executed `#define name body`. -/
def Result.executes (r : Result) (name : String) (body : List Token) : Bool :=
  r.trace.any (fun e => e.name == name && e.body == body)

/-- Whether a pass executed a `#define` of a name that was defined at that point. -/
def Result.redefines (r : Result) : Bool :=
  r.trace.any (fun e => e.previous.isSome)

/-- Whether a pass executed a `#define` of a name whose definition at that
point had a different replacement list: the case a compiler diagnoses as a
macro redefinition. -/
def Result.redefinesDifferently (r : Result) : Bool :=
  r.trace.any (fun e =>
    match e.previous with
    | some old => old != e.body
    | none => false)

/-- The environment in which the pair is already defined as the linkage
brackets, as a header of the same kind would leave it. -/
def bracketsDefined : Env :=
  (Env.empty.define "__BEGIN_CDECLS" beginBody).define "__END_CDECLS" endBody

/-- The environment in which only `__END_CDECLS` is defined, as nothing. -/
def onlyEndDefined : Env :=
  Env.empty.define "__END_CDECLS" []

/-- The environment in which only `__BEGIN_CDECLS` is defined, as the token `FOO`. -/
def onlyBeginDefined : Env :=
  Env.empty.define "__BEGIN_CDECLS" [Token.ident "FOO"]

/-- The environment in which only `NDEBUG` is defined, as nothing. -/
def ndebugDefined : Env :=
  Env.empty.define "NDEBUG" []

/-! ## The `ALWAYS_INLINE` guard -/

/-- C1: in either language mode, if `ALWAYS_INLINE` is not defined before the
header is included, the inclusion succeeds and afterwards `ALWAYS_INLINE` has
the replacement list `inline __attribute__((always_inline))`. -/
theorem always_inline_defined_after (lang : Lang) (env : Env)
    (h : env "ALWAYS_INLINE" = none) :
    ∃ r, includeCdefs lang env = some r ∧
      r.env "ALWAYS_INLINE" = some alwaysInlineBody := by
  cases lang <;> cases h2 : env "__BEGIN_CDECLS" <;>
    simp [includeCdefs, process, run, step, cdefs, State.active, Frame.active, isDefined,
      Env.define, h, h2]

/-- Instance of C1: C++ mode, a prior environment that defines only `NDEBUG`. -/
theorem always_inline_defined_after_witness :
    (Env.empty.define "NDEBUG" []) "ALWAYS_INLINE" = none ∧
    ∃ r, includeCdefs Lang.cpp (Env.empty.define "NDEBUG" []) = some r ∧
      r.env "ALWAYS_INLINE" = some alwaysInlineBody :=
  ⟨by decide, always_inline_defined_after Lang.cpp (Env.empty.define "NDEBUG" []) (by decide)⟩

/-- C2: in either language mode, if `ALWAYS_INLINE` is already defined, with
whatever replacement list, the inclusion executes no `#define` of
`ALWAYS_INLINE` and its replacement list afterwards is the one it had before. -/
theorem always_inline_kept (lang : Lang) (env : Env) (body : List Token)
    (h : env "ALWAYS_INLINE" = some body) :
    ∃ r, includeCdefs lang env = some r ∧
      r.defines "ALWAYS_INLINE" = false ∧
      r.env "ALWAYS_INLINE" = some body := by
  cases lang <;> cases h2 : env "__BEGIN_CDECLS" <;>
    simp [includeCdefs, process, run, step, cdefs, State.active, Frame.active, isDefined,
      Env.define, Result.defines, h, h2]

/-- Instance of C2: C++ mode, `ALWAYS_INLINE` previously defined as `inline`. -/
theorem always_inline_kept_witness :
    (Env.empty.define "ALWAYS_INLINE" [Token.ident "inline"]) "ALWAYS_INLINE"
      = some [Token.ident "inline"] ∧
    ∃ r, includeCdefs Lang.cpp (Env.empty.define "ALWAYS_INLINE" [Token.ident "inline"])
        = some r ∧
      r.defines "ALWAYS_INLINE" = false ∧
      r.env "ALWAYS_INLINE" = some [Token.ident "inline"] :=
  ⟨by decide,
   always_inline_kept Lang.cpp (Env.empty.define "ALWAYS_INLINE" [Token.ident "inline"])
     [Token.ident "inline"] (by decide)⟩

/-! ## The linkage brackets under C++ -/

/-- C3: in C++ mode, if neither `__BEGIN_CDECLS` nor `__END_CDECLS` is defined
before, then afterwards `__BEGIN_CDECLS` is defined as `extern "C" {` and
`__END_CDECLS` as `}`. -/
theorem cpp_installs_brackets (env : Env)
    (hb : env "__BEGIN_CDECLS" = none) (he : env "__END_CDECLS" = none) :
    ∃ r, includeCdefs Lang.cpp env = some r ∧
      r.env "__BEGIN_CDECLS" = some beginBody ∧
      r.env "__END_CDECLS" = some endBody := by
  cases h1 : env "ALWAYS_INLINE" <;>
    simp [includeCdefs, process, run, step, cdefs, State.active, Frame.active, isDefined,
      Env.define, hb, he, h1]

/-- Instance of C3: C++ mode, nothing defined before. -/
theorem cpp_installs_brackets_witness :
    Env.empty "__BEGIN_CDECLS" = none ∧ Env.empty "__END_CDECLS" = none ∧
    ∃ r, includeCdefs Lang.cpp Env.empty = some r ∧
      r.env "__BEGIN_CDECLS" = some beginBody ∧
      r.env "__END_CDECLS" = some endBody :=
  ⟨rfl, rfl, cpp_installs_brackets Env.empty rfl rfl⟩

/-- C4, evaluation at the failing input: in C++ mode, when both macros are
the linkage brackets already, the inclusion executes a `#define` of each of the
two names, with a replacement list different from the one in place, and leaves
both with an empty replacement list. -/
theorem cpp_defined_pair_is_overwritten :
    bracketsDefined "__BEGIN_CDECLS" = some beginBody ∧
    bracketsDefined "__END_CDECLS" = some endBody ∧
    ∃ r, includeCdefs Lang.cpp bracketsDefined = some r ∧
      r.defines "__BEGIN_CDECLS" = true ∧ r.defines "__END_CDECLS" = true ∧
      r.trace = [⟨"ALWAYS_INLINE", alwaysInlineBody, none⟩,
                 ⟨"__BEGIN_CDECLS", [], some beginBody⟩,
                 ⟨"__END_CDECLS", [], some endBody⟩] ∧
      r.redefinesDifferently = true ∧
      r.env "__BEGIN_CDECLS" = some [] ∧ r.env "__END_CDECLS" = some [] := by
  refine ⟨by decide, by decide, _, rfl, ?_⟩
  refine ⟨by decide, by decide, by decide, by decide, by decide, by decide⟩

/-- C8, counterexample: in C++ mode with only `__END_CDECLS` defined before,
the inclusion executes both `#define __BEGIN_CDECLS extern "C" {` and
`#define __END_CDECLS }`, the second one on a name that is already defined. -/
theorem cpp_end_only_still_installs :
    onlyEndDefined "__BEGIN_CDECLS" = none ∧
    onlyEndDefined "__END_CDECLS" = some [] ∧
    ∃ r, includeCdefs Lang.cpp onlyEndDefined = some r ∧
      r.executes "__BEGIN_CDECLS" beginBody = true ∧
      r.executes "__END_CDECLS" endBody = true ∧
      r.trace = [⟨"ALWAYS_INLINE", alwaysInlineBody, none⟩,
                 ⟨"__BEGIN_CDECLS", beginBody, none⟩,
                 ⟨"__END_CDECLS", endBody, some []⟩] := by
  refine ⟨by decide, by decide, ?_⟩
  simp [includeCdefs, process, run, step, cdefs, State.active, Frame.active, isDefined,
    Env.define, Env.empty, onlyEndDefined, Result.executes]

/-- C8, amended: in C++ mode, if `__BEGIN_CDECLS` is already defined, the
inclusion executes neither `#define __BEGIN_CDECLS extern "C" {` nor
`#define __END_CDECLS }`. -/
theorem cpp_begin_defined_skips_brackets (env : Env) (body : List Token)
    (h : env "__BEGIN_CDECLS" = some body) :
    ∃ r, includeCdefs Lang.cpp env = some r ∧
      r.executes "__BEGIN_CDECLS" beginBody = false ∧
      r.executes "__END_CDECLS" endBody = false := by
  cases h1 : env "ALWAYS_INLINE" <;>
    simp [includeCdefs, process, run, step, cdefs, State.active, Frame.active, isDefined,
      Env.define, Result.executes, h, h1] <;> decide

/-- Instance of the amended C8: both macros already defined as the brackets. -/
theorem cpp_begin_defined_skips_brackets_witness :
    bracketsDefined "__BEGIN_CDECLS" = some beginBody ∧
    ∃ r, includeCdefs Lang.cpp bracketsDefined = some r ∧
      r.executes "__BEGIN_CDECLS" beginBody = false ∧
      r.executes "__END_CDECLS" endBody = false :=
  ⟨by decide, cpp_begin_defined_skips_brackets bracketsDefined beginBody (by decide)⟩

/-- C10: in C++ mode, if `__BEGIN_CDECLS` is already defined, with whatever
replacement list and whether or not `__END_CDECLS` is defined, then after the
inclusion both macros are defined with an empty replacement list. -/
theorem cpp_begin_defined_gives_empty (env : Env) (body : List Token)
    (h : env "__BEGIN_CDECLS" = some body) :
    ∃ r, includeCdefs Lang.cpp env = some r ∧
      r.env "__BEGIN_CDECLS" = some [] ∧ r.env "__END_CDECLS" = some [] := by
  cases h1 : env "ALWAYS_INLINE" <;>
    simp [includeCdefs, process, run, step, cdefs, State.active, Frame.active, isDefined,
      Env.define, h, h1]

/-- Instance of C10: only `__BEGIN_CDECLS` defined before, as `FOO`. -/
theorem cpp_begin_defined_gives_empty_witness :
    onlyBeginDefined "__BEGIN_CDECLS" = some [Token.ident "FOO"] ∧
    onlyBeginDefined "__END_CDECLS" = none ∧
    ∃ r, includeCdefs Lang.cpp onlyBeginDefined = some r ∧
      r.env "__BEGIN_CDECLS" = some [] ∧ r.env "__END_CDECLS" = some [] :=
  ⟨by decide, by decide,
   cpp_begin_defined_gives_empty onlyBeginDefined [Token.ident "FOO"] (by decide)⟩

/-! ## Plain C -/

/-- C5: in C mode, whatever was defined before, the inclusion executes no
`#define` of `__BEGIN_CDECLS` or `__END_CDECLS`, and each of the two has
afterwards exactly the definition it had before (none if it had none). -/
theorem c_mode_leaves_pair_alone (env : Env) :
    ∃ r, includeCdefs Lang.c env = some r ∧
      r.defines "__BEGIN_CDECLS" = false ∧ r.defines "__END_CDECLS" = false ∧
      r.env "__BEGIN_CDECLS" = env "__BEGIN_CDECLS" ∧
      r.env "__END_CDECLS" = env "__END_CDECLS" := by
  cases h1 : env "ALWAYS_INLINE" <;> cases h2 : env "__BEGIN_CDECLS" <;>
    simp [includeCdefs, process, run, step, cdefs, State.active, Frame.active, isDefined,
      Env.define, Result.defines, h1, h2]

/-- C7, counterexample: in C mode with nothing defined before, the inclusion
succeeds, executes only the `#define` of `ALWAYS_INLINE`, and leaves
`__BEGIN_CDECLS` and `__END_CDECLS` undefined, so neither has an empty
replacement list and a use of the pair is not replaced at all. -/
theorem c_mode_pair_stays_undefined :
    ∃ r, includeCdefs Lang.c Env.empty = some r ∧
      r.trace = [⟨"ALWAYS_INLINE", alwaysInlineBody, none⟩] ∧
      r.env "__BEGIN_CDECLS" = none ∧ r.env "__END_CDECLS" = none ∧
      r.env "__BEGIN_CDECLS" ≠ some [] ∧ r.env "__END_CDECLS" ≠ some [] ∧
      expand r.env 8 [] pairUse = pairUse := by
  refine ⟨_, rfl, ?_⟩
  refine ⟨by decide, by decide, by decide, by decide, by decide, by decide⟩

/-- C7, amended: in C mode, if `__BEGIN_CDECLS` and `__END_CDECLS` are not
defined before, the inclusion succeeds and afterwards each of the two is still
undefined, and a use of the pair expands to itself at every fuel. -/
theorem c_mode_undefined_pair_stays_undefined (env : Env)
    (hb : env "__BEGIN_CDECLS" = none) (he : env "__END_CDECLS" = none) :
    ∃ r, includeCdefs Lang.c env = some r ∧
      r.env "__BEGIN_CDECLS" = none ∧ r.env "__END_CDECLS" = none ∧
      ∀ fuel, expand r.env fuel [] pairUse = pairUse := by
  cases h1 : env "ALWAYS_INLINE" <;>
    simp [includeCdefs, process, run, step, cdefs, State.active, Frame.active, isDefined,
      Env.define, hb, he, h1] <;>
    intro fuel <;> cases fuel <;>
    simp [expand, pairUse, Env.define, hb, he]

/-- Instance of the amended C7: C mode, only `NDEBUG` defined before. -/
theorem c_mode_undefined_pair_stays_undefined_witness :
    ndebugDefined "__BEGIN_CDECLS" = none ∧ ndebugDefined "__END_CDECLS" = none ∧
    ∃ r, includeCdefs Lang.c ndebugDefined = some r ∧
      r.env "__BEGIN_CDECLS" = none ∧ r.env "__END_CDECLS" = none ∧
      ∀ fuel, expand r.env fuel [] pairUse = pairUse :=
  ⟨by decide, by decide,
   c_mode_undefined_pair_stays_undefined ndebugDefined (by decide) (by decide)⟩

/-! ## Including the header twice -/

/-- C6, counterexample: in C++ mode with nothing defined before, when lines 3
to 15 are processed twice without line 1, the first pass defines the pair as
the linkage brackets and the second pass executes `#define __BEGIN_CDECLS` and
`#define __END_CDECLS` with empty replacement lists on the two names it finds
defined, so the environment after the second pass differs from the one after
the first. -/
theorem cpp_second_pass_redefines :
    ∃ r1 r2, guardedTwice Lang.cpp Env.empty = some (r1, r2) ∧
      r1.env "__BEGIN_CDECLS" = some beginBody ∧ r1.env "__END_CDECLS" = some endBody ∧
      r2.trace = [⟨"__BEGIN_CDECLS", [], some beginBody⟩,
                  ⟨"__END_CDECLS", [], some endBody⟩] ∧
      r2.redefines = true ∧ r2.redefinesDifferently = true ∧
      r2.env "__BEGIN_CDECLS" = some [] ∧ r2.env "__END_CDECLS" = some [] ∧
      r2.env ≠ r1.env := by
  refine ⟨_, _, rfl, ?_⟩
  refine ⟨by decide, by decide, by decide, by decide, by decide, by decide, by decide, ?_⟩
  intro h
  have h2 := congrFun h "__BEGIN_CDECLS"
  revert h2
  decide

/-- C6, amended: in either language mode and whatever was defined before, when
the header is included twice the first inclusion is the plain inclusion and the
second is skipped because of the `#pragma once` on line 1: it executes no
`#define` and leaves the environment of the first inclusion as it is.  In C
mode lines 3 to 15 alone, processed twice, give the same. -/
theorem second_inclusion_is_skipped (lang : Lang) (env : Env) :
    (∃ r1 r2, includeCdefs lang env = some r1 ∧
      includeCdefsTwice lang env = some (r1, r2) ∧
      r2.trace = [] ∧ r2.redefines = false ∧ r2.env = r1.env) ∧
    (∃ r1 r2, guardedTwice Lang.c env = some (r1, r2) ∧
      r2.trace = [] ∧ r2.redefines = false ∧ r2.env = r1.env) := by
  constructor
  · cases lang <;> cases h1 : env "ALWAYS_INLINE" <;> cases h2 : env "__BEGIN_CDECLS" <;>
      simp [includeCdefs, includeCdefsTwice, includeFile, issuesOnce, cdefsPath, process, run,
        step, cdefs, State.active, Frame.active, isDefined, Env.define, Result.redefines,
        h1, h2]
  · cases h1 : env "ALWAYS_INLINE" <;> cases h2 : env "__BEGIN_CDECLS" <;>
      simp [guardedTwice, guardedDirectives, process, run, step, cdefs, State.active,
        Frame.active, isDefined, Env.define, Result.redefines, h1, h2] <;>
      exact ⟨_, _, ⟨rfl, rfl⟩, rfl, by simp, rfl⟩

end CDefs
